import Mathlib

/-!
Verification of `src/vcfsample2info.cpp` (vcflib's `vcfsample2info` tool).

The tool reads variant records, collects per-sample values of a configured
sample field, computes a statistic (mean / median / min / max), and writes the
result into the record's INFO map under a configured key.

Numeric values (`double` in the source) are modelled as rationals `ℚ`; machine
floating point rounding is not at issue in any of the properties below, which
are about selection, aggregation shape, error flow, and string formatting.
-/

deriving instance DecidableEq for Except

namespace Vcfsample2info

/-- The `StatType` enumeration of the source (`enum StatType { MEAN, MEDIAN, MIN, MAX }`). -/
inductive StatType where
  | MEAN
  | MEDIAN
  | MIN
  | MAX
deriving DecidableEq

/-- The `switch (statType)` in `main` that renders the statistic name
(`"mean" | "median" | "min" | "max"`); the `default:` branch is unreachable for
the four enum values. -/
def statTypeStr : StatType → String
  | .MEAN => "mean"
  | .MEDIAN => "median"
  | .MIN => "min"
  | .MAX => "max"

/-- The header line built in `main`:
`"##INFO=<ID="+infoField+",Number=1,Type=Float,Description=\"Summary statistic generated by"+statTypeStr+" of per-sample values of "+sampleField+" \">"`.
Note the source concatenates `"generated by"` directly with the statistic name,
with no separating space. -/
def headerLine (infoField : String) (sampleField : String) (st : StatType) : String :=
  "##INFO=<ID=" ++ infoField ++ ",Number=1,Type=Float,Description=\"Summary statistic generated by"
    ++ statTypeStr st ++ " of per-sample values of " ++ sampleField ++ " \">"

/-- The statistic name as the spec renders it, `mean|median|min|max`
(same four words as `statTypeStr`; kept separate so the header-format claim is a
refinement between a source-side and a spec-side definition). -/
def statName : StatType → String
  | .MEAN => "mean"
  | .MEDIAN => "median"
  | .MIN => "min"
  | .MAX => "max"

/-- The header line exactly as the spec's "Header line format (exact)" sentence
writes it, with a space between `by` and the statistic name. -/
def headerLineSpec (infoField : String) (sampleField : String) (st : StatType) : String :=
  "##INFO=<ID=" ++ infoField ++ ",Number=1,Type=Float,Description=\"Summary statistic generated by "
    ++ statName st ++ " of per-sample values of " ++ sampleField ++ " \">"

/-- The header line format amended to what the source emits: no space between
`by` and the statistic name (everything else as the spec writes it). -/
def headerLineSpecAmended (infoField : String) (sampleField : String) (st : StatType) : String :=
  "##INFO=<ID=" ++ infoField ++ ",Number=1,Type=Float,Description=\"Summary statistic generated by"
    ++ statName st ++ " of per-sample values of " ++ sampleField ++ " \">"

/-- Accumulate a run of decimal digits into a natural number; `none` on the
first non-digit character. Helper for `parseDouble`. -/
def parseNatAux : List Char → Nat → Option Nat
  | [], acc => some acc
  | c :: cs, acc =>
    if c.isDigit then parseNatAux cs (10 * acc + (c.toNat - 48)) else none

/-- Parse a non-empty all-digit character run as a natural number. -/
def parseNatDigits : List Char → Option Nat
  | [] => none
  | c :: cs => parseNatAux (c :: cs) 0

/-- Parse an unsigned decimal literal (digits, optionally `digits.digits`) as a
rational. Helper for `parseDouble`. -/
def parseUnsigned (cs : List Char) : Option ℚ :=
  match cs.span (fun c => !(c == '.')) with
  | (intPart, []) => (parseNatDigits intPart).map (fun n => (n : ℚ))
  | (intPart, _ :: frac) =>
    match parseNatDigits intPart, parseNatDigits frac with
    | some a, some b => some ((a : ℚ) + (b : ℚ) / ((10 : ℚ) ^ frac.length))
    | _, _ => none

/-- Modelled from the spec: the numeric conversion used by
`convert(s, val)` (declared in the library's conversion helper, whose
definition is not part of this source file). The spec's step (c) reads
"parse the single value as a floating-point number"; we model it as a decimal
parser returning `none` exactly when the string is not a numeric literal.
(Partial numeric prefixes such as `"1x"` are treated as failures.) -/
def parseDouble (s : String) : Option ℚ :=
  match s.data with
  | '-' :: rest => (parseUnsigned rest).map (fun q => -q)
  | cs => parseUnsigned cs

/-- The value the caller in `main` ends up with after `convert(s, val)`:
the source discards `convert`'s success flag, and on a failed extraction the
stream leaves `val` value-initialized to `0` (C++11 `operator>>` semantics),
which is then pushed onto `vals` regardless. -/
def convertValue (s : String) : ℚ :=
  (parseDouble s).getD 0

/-- Lookup in an association list, modelling `std::map::find` /
`operator[]` read access (maps hold at most one entry per key). -/
def lookupA {α : Type} (k : String) : List (String × α) → Option α
  | [] => none
  | (k2, v) :: rest => if k2 = k then some v else lookupA k rest

/-- Errors that abort the run (`return 1` inside the record loop), plus the
unguarded empty-collection outcome; see `computeStat`. -/
inductive AggError where
  | multiValue
  | emptyValues
deriving DecidableEq

/-- One sample's contribution to the collected values, from the body of the
sample loop in `main`: a sample without the field is skipped (`find` miss);
a field with more than one value is the fatal multi-value error; otherwise the
front value is converted (success flag ignored, see `convertValue`). -/
def sampleValue (f : String) (fields : List (String × List String)) :
    Except AggError (Option ℚ) :=
  match lookupA f fields with
  | none => .ok none
  | some vs =>
    if 1 < vs.length then .error .multiValue
    else .ok (some (convertValue (vs.headD "")))

/-- The sample loop of `main`: iterate the record's samples in map order and
collect converted values into `vals`; the first multi-value field aborts. -/
def collectVals (f : String) :
    List (String × List (String × List String)) → Except AggError (List ℚ)
  | [] => .ok []
  | (_, fields) :: rest =>
    match sampleValue f fields with
    | .error e => .error e
    | .ok none => collectVals f rest
    | .ok (some v) => (collectVals f rest).map (fun vs => v :: vs)

/-- `double median(vector<double>&)` of the source:
`n = v.size()/2; nth_element(v.begin(), v.begin()+n, v.end()); return v[n];`.
`nth_element` places at index `n` the element that would be there after a full
sort, so the returned value is entry `⌊size/2⌋` of the sorted sequence; on an
empty vector `v[n]` is out of bounds, modelled as `none`. -/
def median (v : List ℚ) : Option ℚ :=
  (List.insertionSort (· ≤ ·) v)[v.length / 2]?

/-- `double mean(vector<double>&)` of the source:
`sum = accumulate(v.begin(), v.end(), 0.0); return sum / v.size();`. -/
def mean (v : List ℚ) : ℚ :=
  (v.foldl (· + ·) 0) / (v.length : ℚ)

/-- `*min_element(vals.begin(), vals.end())`: the least element, `none` on an
empty range (where dereferencing the end iterator is undefined). -/
def minElement : List ℚ → Option ℚ
  | [] => none
  | x :: xs => some (xs.foldl min x)

/-- `*max_element(vals.begin(), vals.end())`: the greatest element, `none` on
an empty range. -/
def maxElement : List ℚ → Option ℚ
  | [] => none
  | x :: xs => some (xs.foldl max x)

/-- The `switch (statType)` computing `result` in the record loop. The source
has no emptiness guard: on an empty `vals`, `median` reads `v[0]` out of
bounds, `min_element`/`max_element` dereference the end iterator, and `mean`
divides `0.0` by a count of `0` (NaN). All four unguarded empty-collection
outcomes are modelled as `none`. -/
def computeStat : StatType → List ℚ → Option ℚ
  | .MEAN, v => if v.isEmpty then none else some (mean v)
  | .MEDIAN, v => median v
  | .MIN, v => minElement v
  | .MAX, v => maxElement v

/-- Modelled from the spec: the numeric-to-string conversion `convert(result)`
(the library's conversion helper, not part of this source file), per the spec's
"the computed value formatted as a floating-point literal"; modelled as the
canonical rendering of the rational, which is injective. -/
def formatDouble (q : ℚ) : String :=
  toString q.num ++ "/" ++ toString q.den

/-- `var.info[infoField].clear(); var.info[infoField].push_back(...)` on the
INFO map: the entry under `k` (created if absent) is replaced by the
one-element sequence `[v]`; std::map keeps one entry per key, so this replaces
the unique existing binding or inserts a fresh one. -/
def updateInfo (k : String) (v : String) :
    List (String × List String) → List (String × List String)
  | [] => [(k, [v])]
  | (k2, vs) :: rest =>
    if k2 = k then (k2, [v]) :: rest else (k2, vs) :: updateInfo k v rest

/-- A variant record as the tool uses it: the site-level INFO map
(`map<string, vector<string>> var.info`) and the per-sample fields
(`map<string, map<string, vector<string>>> var.samples`), both as association
lists in map iteration order. -/
structure Variant where
  info : List (String × List String)
  samples : List (String × List (String × List String))
deriving DecidableEq

/-- The run configuration fixed before the record loop: `sampleField` (`-f`),
`infoField` (`-i`), and the selected statistic. -/
structure Config where
  sampleField : String
  infoField : String
  statType : StatType

/-- The body of the record loop of `main` for one record: collect the values,
compute the statistic, and overwrite `var.info[infoField]` with the formatted
result. A multi-value sample field aborts (`return 1`); an empty collection
reaches the unguarded statistic computation (`.error .emptyValues` stands for
that undefined outcome, see `computeStat`). -/
def processRecord (cfg : Config) (var : Variant) : Except AggError Variant :=
  match collectVals cfg.sampleField var.samples with
  | .error e => .error e
  | .ok vals =>
    match computeStat cfg.statType vals with
    | none => .error .emptyValues
    | some result =>
      .ok { var with info := updateInfo cfg.infoField (formatDouble result) var.info }

/-- The whole record loop: process records in input order, emitting each
transformed record, and stop at the first fatal error (records before it have
already been written). Returns the emitted records and the error, if any. -/
def processAll (cfg : Config) : List Variant → List Variant × Option AggError
  | [] => ([], none)
  | v :: rest =>
    match processRecord cfg v with
    | .error e => ([], some e)
    | .ok v2 => (v2 :: (processAll cfg rest).1, (processAll cfg rest).2)

/-- The process exit code of the record-processing phase: `1` on a fatal error
(`return 1`), `0` on success. -/
def exitCode (cfg : Config) (recs : List Variant) : Nat :=
  match (processAll cfg recs).2 with
  | some _ => 1
  | none => 0

/-- Whether some sample field entry for `f` holds more than one value
(the condition of the fatal multi-value check). -/
def hasMultiValue (f : String) (fields : List (String × List String)) : Bool :=
  match lookupA f fields with
  | some vs => decide (1 < vs.length)
  | none => false

/-- Test fixture: the record of the spec's end-to-end scenarios — samples
`S1` with `DP="10"`, `S2` with `DP="20"`, `S3` without `DP` — carrying one
pre-existing INFO entry. -/
def recDP : Variant :=
  { info := [("AC", ["5"])],
    samples := [("S1", [("DP", ["10"])]), ("S2", [("DP", ["20"])]),
                ("S3", [("GT", ["0/1"])])] }

/-- Test fixture: the record `recDP` after the `--median` run writes
`DP_MEDIAN`. -/
def recDPMedianOut : Variant :=
  { info := [("AC", ["5"]), ("DP_MEDIAN", [formatDouble 20])],
    samples := recDP.samples }

/-- Test fixture: a record in which sample `S1` carries the non-numeric value
`"abc"` for `DP` and `S2` a numeric one. -/
def recAbc : Variant :=
  { info := [],
    samples := [("S1", [("DP", ["abc"])]), ("S2", [("DP", ["7"])])] }

/-- Test fixture: a record in which no sample carries `DP` at all. -/
def recNoDP : Variant :=
  { info := [("AC", ["5"])],
    samples := [("S1", [("GT", ["0/0"])]), ("S2", [("GT", ["0/1"])])] }

theorem foldl_add_eq_sum : ∀ (l : List ℚ) (a : ℚ), l.foldl (· + ·) a = a + l.sum
  | [], a => by simp
  | x :: xs, a => by
    rw [List.foldl_cons, foldl_add_eq_sum xs (a + x), List.sum_cons]
    ring

theorem foldl_min_mem : ∀ (xs : List ℚ) (a : ℚ), xs.foldl min a ∈ a :: xs
  | [], a => by simp
  | x :: xs, a => by
    have ih := foldl_min_mem xs (min a x)
    rw [List.foldl_cons]
    rcases List.mem_cons.mp ih with h1 | h1
    · rcases min_choice a x with hm | hm
      · rw [h1, hm]; exact List.mem_cons_self _ _
      · rw [h1, hm]; exact List.mem_cons_of_mem _ (List.mem_cons_self _ _)
    · exact List.mem_cons_of_mem _ (List.mem_cons_of_mem _ h1)

theorem foldl_min_le : ∀ (xs : List ℚ) (a : ℚ), ∀ x ∈ a :: xs, xs.foldl min a ≤ x
  | [], a => by
    intro x hx
    rcases List.mem_cons.mp hx with h | h
    · simp [h]
    · simp at h
  | y :: ys, a => by
    intro x hx
    have ih := foldl_min_le ys (min a y)
    rw [List.foldl_cons]
    rcases List.mem_cons.mp hx with h | h
    · subst h
      exact le_trans (ih (min x y) (List.mem_cons_self _ _)) (min_le_left _ _)
    · rcases List.mem_cons.mp h with h2 | h2
      · subst h2
        exact le_trans (ih (min a x) (List.mem_cons_self _ _)) (min_le_right _ _)
      · exact ih x (List.mem_cons_of_mem _ h2)

theorem foldl_max_mem : ∀ (xs : List ℚ) (a : ℚ), xs.foldl max a ∈ a :: xs
  | [], a => by simp
  | x :: xs, a => by
    have ih := foldl_max_mem xs (max a x)
    rw [List.foldl_cons]
    rcases List.mem_cons.mp ih with h1 | h1
    · rcases max_choice a x with hm | hm
      · rw [h1, hm]; exact List.mem_cons_self _ _
      · rw [h1, hm]; exact List.mem_cons_of_mem _ (List.mem_cons_self _ _)
    · exact List.mem_cons_of_mem _ (List.mem_cons_of_mem _ h1)

theorem le_foldl_max : ∀ (xs : List ℚ) (a : ℚ), ∀ x ∈ a :: xs, x ≤ xs.foldl max a
  | [], a => by
    intro x hx
    rcases List.mem_cons.mp hx with h | h
    · simp [h]
    · simp at h
  | y :: ys, a => by
    intro x hx
    have ih := le_foldl_max ys (max a y)
    rw [List.foldl_cons]
    rcases List.mem_cons.mp hx with h | h
    · subst h
      exact le_trans (le_max_left _ _) (ih (max x y) (List.mem_cons_self _ _))
    · rcases List.mem_cons.mp h with h2 | h2
      · subst h2
        exact le_trans (le_max_right _ _) (ih (max a x) (List.mem_cons_self _ _))
      · exact ih x (List.mem_cons_of_mem _ h2)

theorem lookupA_updateInfo_self (k v : String) :
    ∀ info, lookupA k (updateInfo k v info) = some [v]
  | [] => by simp [updateInfo, lookupA]
  | (k2, vs) :: rest => by
    by_cases hk : k2 = k
    · simp [updateInfo, hk, lookupA]
    · simp [updateInfo, hk, lookupA, lookupA_updateInfo_self k v rest]

theorem lookupA_updateInfo_other (k v q : String) (h : q ≠ k) :
    ∀ info, lookupA q (updateInfo k v info) = lookupA q info
  | [] => by simp [updateInfo, lookupA, Ne.symm h]
  | (k2, vs) :: rest => by
    by_cases hk : k2 = k
    · subst hk
      simp [updateInfo, lookupA, Ne.symm h]
    · simp [updateInfo, hk, lookupA, lookupA_updateInfo_other k v q h rest]

theorem computeStat_of_ne_nil (st : StatType) (v : List ℚ) (h : v ≠ []) :
    ∃ r, computeStat st v = some r := by
  match v, h with
  | x :: xs, _ =>
    cases st with
    | MEAN => exact ⟨mean (x :: xs), by simp [computeStat]⟩
    | MEDIAN =>
      refine ⟨(List.insertionSort (· ≤ ·) (x :: xs)).getD ((x :: xs).length / 2) 0, ?_⟩
      show median (x :: xs) = _
      unfold median
      have hidx : (x :: xs).length / 2 < (List.insertionSort (· ≤ ·) (x :: xs)).length := by
        rw [List.length_insertionSort]
        exact Nat.div_lt_self (Nat.succ_pos _) (by norm_num)
      rw [List.getElem?_eq_getElem hidx, List.getD_eq_getElem _ _ hidx]
    | MIN => exact ⟨xs.foldl min x, rfl⟩
    | MAX => exact ⟨xs.foldl max x, rfl⟩

theorem collectVals_any_multi (f : String) :
    ∀ samples, samples.any (fun p => hasMultiValue f p.2) = true →
      collectVals f samples = .error .multiValue
  | [], h => by simp at h
  | (nm, fields) :: rest, h => by
    rw [List.any_cons, Bool.or_eq_true] at h
    cases hl : lookupA f fields with
    | none =>
      have hm : hasMultiValue f fields = false := by unfold hasMultiValue; rw [hl]
      have h2 : rest.any (fun p => hasMultiValue f p.2) = true := by
        rcases h with h | h
        · rw [hm] at h; exact absurd h (by simp)
        · exact h
      simp [collectVals, sampleValue, hl, collectVals_any_multi f rest h2]
    | some vs =>
      by_cases hlen : 1 < vs.length
      · simp [collectVals, sampleValue, hl, hlen]
      · have hm : hasMultiValue f fields = false := by
          unfold hasMultiValue; rw [hl]; simp [hlen]
        have h2 : rest.any (fun p => hasMultiValue f p.2) = true := by
          rcases h with h | h
          · rw [hm] at h; exact absurd h (by simp)
          · exact h
        simp [collectVals, sampleValue, hl, hlen, collectVals_any_multi f rest h2,
          Except.map]

theorem processAll_append_of_ok (cfg : Config) :
    ∀ pre rest, (processAll cfg pre).2 = none →
      processAll cfg (pre ++ rest) =
        ((processAll cfg pre).1 ++ (processAll cfg rest).1, (processAll cfg rest).2)
  | [], rest, _ => by simp [processAll]
  | v :: pre, rest, h => by
    cases hv : processRecord cfg v with
    | error e =>
      rw [show processAll cfg (v :: pre) = ([], some e) by simp [processAll, hv]] at h
      simp at h
    | ok v2 =>
      have hpre : (processAll cfg pre).2 = none := by
        rw [show processAll cfg (v :: pre)
              = (v2 :: (processAll cfg pre).1, (processAll cfg pre).2) by
            simp [processAll, hv]] at h
        exact h
      have ih := processAll_append_of_ok cfg pre rest hpre
      simp [processAll, hv, ih]

/-- C1: for every non-empty collected values sequence `v` of length `n`, the
median statistic is the element at 0-based index `⌊n/2⌋` of the sorted
sequence (selection-based median, witnessed by a sorted permutation of `v`),
and in particular `median [1,2,3,4] = 3`, not `5/2`. -/
theorem median_is_sorted_half_index (v : List ℚ) (h : v ≠ []) :
    (∃ m, median v = some m
      ∧ (List.insertionSort (· ≤ ·) v)[v.length / 2]? = some m
      ∧ List.Sorted (· ≤ ·) (List.insertionSort (· ≤ ·) v)
      ∧ (List.insertionSort (· ≤ ·) v).Perm v
      ∧ m ∈ v)
    ∧ median [1, 2, 3, 4] = some 3 ∧ median [1, 2, 3, 4] ≠ some (5 / 2) := by
  have h3 : median [1, 2, 3, 4] = some 3 := by decide
  refine ⟨?_, h3, ?_⟩
  · have hidx : v.length / 2 < (List.insertionSort (· ≤ ·) v).length := by
      rw [List.length_insertionSort]
      exact Nat.div_lt_self (List.length_pos.mpr h) (by norm_num)
    refine ⟨(List.insertionSort (· ≤ ·) v).get ⟨v.length / 2, hidx⟩,
      ?_, ?_, List.sorted_insertionSort _ _, List.perm_insertionSort _ _, ?_⟩
    · show (List.insertionSort (· ≤ ·) v)[v.length / 2]? = _
      rw [List.getElem?_eq_getElem hidx, List.get_eq_getElem]
    · rw [List.getElem?_eq_getElem hidx, List.get_eq_getElem]
    · exact (List.perm_insertionSort (· ≤ ·) v).subset (List.get_mem _ _ _)
  · rw [h3]
    intro hc
    have h32 := Option.some.inj hc
    norm_num at h32

/-- C1 witness: the theorem applied to the concrete sequence `[1,2,3,4]`. -/
theorem median_is_sorted_half_index_witness :
    ([(1 : ℚ), 2, 3, 4] ≠ [])
    ∧ ((∃ m, median [(1 : ℚ), 2, 3, 4] = some m
        ∧ (List.insertionSort (· ≤ ·) [(1 : ℚ), 2, 3, 4])[([(1 : ℚ), 2, 3, 4].length) / 2]?
            = some m
        ∧ List.Sorted (· ≤ ·) (List.insertionSort (· ≤ ·) [(1 : ℚ), 2, 3, 4])
        ∧ (List.insertionSort (· ≤ ·) [(1 : ℚ), 2, 3, 4]).Perm [(1 : ℚ), 2, 3, 4]
        ∧ m ∈ [(1 : ℚ), 2, 3, 4])
      ∧ median [1, 2, 3, 4] = some 3 ∧ median [1, 2, 3, 4] ≠ some (5 / 2)) :=
  ⟨by decide, median_is_sorted_half_index [1, 2, 3, 4] (by decide)⟩

/-- C2 counterexample: on the spec's scenario record (S1 `DP="10"`, S2
`DP="20"`, S3 no `DP`) with `--field DP --info DP_MEDIAN --median`, the
collected values are `[10, 20]` but the written annotation is the median at
index `⌊2/2⌋ = 1`, namely `20` — not `10` as the claim states. -/
theorem c2_median_scenario_counterexample :
    collectVals "DP" recDP.samples = .ok [10, 20]
    ∧ median [10, 20] = some 20
    ∧ processRecord { sampleField := "DP", infoField := "DP_MEDIAN", statType := .MEDIAN }
        recDP = .ok recDPMedianOut
    ∧ lookupA "DP_MEDIAN" recDPMedianOut.info = some [formatDouble 20]
    ∧ formatDouble 20 ≠ formatDouble 10
    ∧ (10 : ℚ) ≠ 20 := by
  refine ⟨by decide, by decide, by decide, by decide, by decide, by decide⟩

/-- C2 amended: same scenario and flags; the collected values are `[10, 20]`
and the destination annotation is the element at sorted index `⌊2/2⌋ = 1`,
i.e. `DP_MEDIAN = 20`. -/
theorem c2_median_scenario_amended :
    collectVals "DP" recDP.samples = .ok [10, 20]
    ∧ median [10, 20] = (List.insertionSort (· ≤ ·) [(10 : ℚ), 20])[2 / 2]?
    ∧ median [10, 20] = some 20
    ∧ processRecord { sampleField := "DP", infoField := "DP_MEDIAN", statType := .MEDIAN }
        recDP = .ok recDPMedianOut
    ∧ lookupA "DP_MEDIAN" recDPMedianOut.info = some [formatDouble 20] := by
  refine ⟨by decide, by decide, by decide, by decide, by decide⟩

/-- C3 counterexample: for destination `DP_MEAN`, source `DP` and the mean
statistic, the emitted header line concatenates `"generated by"` directly
with the statistic name (no separating space), so it differs from the line
the claim spells out. -/
theorem c3_header_line_counterexample :
    headerLine "DP_MEAN" "DP" .MEAN =
      "##INFO=<ID=DP_MEAN,Number=1,Type=Float,Description=\"Summary statistic generated bymean of per-sample values of DP \">"
    ∧ headerLine "DP_MEAN" "DP" .MEAN ≠ headerLineSpec "DP_MEAN" "DP" .MEAN := by
  exact ⟨rfl, by decide⟩

/-- C3 amended: for every destination field, source field and statistic, the
header line is exactly the spec's line with the space between `by` and the
statistic name removed:
`##INFO=<ID=<destinationField>,Number=1,Type=Float,Description="Summary statistic generated by<statName> of per-sample values of <sourceField> ">`. -/
theorem c3_header_line_amended (infoField sampleField : String) (st : StatType) :
    headerLine infoField sampleField st = headerLineSpecAmended infoField sampleField st := by
  cases st <;> rfl

/-- C4: if a record reached by the run has a sample whose source-field entry
holds two or more values, the run aborts with exit code 1: the emitted output
is exactly the output of the records before it — neither the offending record
nor any later record is emitted. -/
theorem multi_value_field_is_fatal (cfg : Config) (pre post : List Variant) (bad : Variant)
    (hpre : (processAll cfg pre).2 = none)
    (hbad : bad.samples.any (fun p => hasMultiValue cfg.sampleField p.2) = true) :
    processAll cfg (pre ++ bad :: post) = ((processAll cfg pre).1, some .multiValue)
    ∧ exitCode cfg (pre ++ bad :: post) = 1 := by
  have hcol : collectVals cfg.sampleField bad.samples = .error .multiValue :=
    collectVals_any_multi cfg.sampleField bad.samples hbad
  have hbadrec : processRecord cfg bad = .error .multiValue := by
    simp [processRecord, hcol]
  have hb : processAll cfg (bad :: post) = ([], some .multiValue) := by
    simp [processAll, hbadrec]
  have happ := processAll_append_of_ok cfg pre (bad :: post) hpre
  rw [hb] at happ
  refine ⟨by rw [happ]; simp, ?_⟩
  unfold exitCode
  rw [happ]

/-- C4 witness: a three-record input whose middle record has `DP=["20","21"]`
in one sample; only the first record's output is emitted and the exit code
is 1. -/
theorem multi_value_field_is_fatal_witness :
    (processAll { sampleField := "DP", infoField := "DP_MIN", statType := .MIN }
        [⟨[], [("S1", [("DP", ["10"])])]⟩]).2 = none
    ∧ (Variant.samples ⟨[], [("S1", [("DP", ["20", "21"])])]⟩).any
        (fun p => hasMultiValue "DP" p.2) = true
    ∧ (processAll { sampleField := "DP", infoField := "DP_MIN", statType := .MIN }
        ([⟨[], [("S1", [("DP", ["10"])])]⟩]
          ++ (⟨[], [("S1", [("DP", ["20", "21"])])]⟩ : Variant)
            :: [⟨[], [("S1", [("DP", ["5"])])]⟩])
        = ((processAll { sampleField := "DP", infoField := "DP_MIN", statType := .MIN }
            [⟨[], [("S1", [("DP", ["10"])])]⟩]).1, some .multiValue)
      ∧ exitCode { sampleField := "DP", infoField := "DP_MIN", statType := .MIN }
          ([⟨[], [("S1", [("DP", ["10"])])]⟩]
            ++ (⟨[], [("S1", [("DP", ["20", "21"])])]⟩ : Variant)
              :: [⟨[], [("S1", [("DP", ["5"])])]⟩]) = 1) :=
  ⟨by decide, by decide,
    multi_value_field_is_fatal { sampleField := "DP", infoField := "DP_MIN", statType := .MIN }
      [⟨[], [("S1", [("DP", ["10"])])]⟩] [⟨[], [("S1", [("DP", ["5"])])]⟩]
      ⟨[], [("S1", [("DP", ["20", "21"])])]⟩ (by decide) (by decide)⟩

/-- C5 counterexample: a record whose sample S1 holds the non-numeric value
`"abc"` for `DP` does not abort the run: the parse failure is ignored, `0` is
collected in its place, the record is processed successfully and the run
exits 0 — contradicting the claim that a non-parseable value is a fatal
error. -/
theorem c5_non_numeric_counterexample :
    parseDouble "abc" = none
    ∧ collectVals "DP" recAbc.samples = .ok [0, 7]
    ∧ processRecord { sampleField := "DP", infoField := "DP_MED", statType := .MEDIAN }
        recAbc = .ok ⟨[("DP_MED", [formatDouble 7])], recAbc.samples⟩
    ∧ exitCode { sampleField := "DP", infoField := "DP_MED", statType := .MEDIAN }
        [recAbc] = 0 := by
  refine ⟨by decide, by decide, by decide, by decide⟩

/-- C5 amended: a sample value that does not parse as a number is not
propagated as an error: the conversion's failure indication is discarded and
the sample contributes the extraction default `0` to the collected values,
after which the run continues. -/
theorem c5_non_numeric_amended (f s : String) (fields : List (String × List String))
    (h1 : lookupA f fields = some [s]) (h2 : parseDouble s = none) :
    convertValue s = 0 ∧ sampleValue f fields = .ok (some 0) := by
  have hc : convertValue s = 0 := by
    unfold convertValue
    rw [h2]
    rfl
  refine ⟨hc, ?_⟩
  unfold sampleValue
  rw [h1]
  simp [hc]

/-- C5 amended witness: the amended theorem at `f = "DP"`, `s = "abc"`. -/
theorem c5_non_numeric_amended_witness :
    lookupA "DP" [("DP", ["abc"])] = some ["abc"]
    ∧ parseDouble "abc" = none
    ∧ (convertValue "abc" = 0
        ∧ sampleValue "DP" [("DP", ["abc"])] = .ok (some 0)) :=
  ⟨by decide, by decide,
    c5_non_numeric_amended "DP" "abc" [("DP", ["abc"])] (by decide) (by decide)⟩

/-- C6: for the mean statistic and every non-empty collected sequence, the
computed result is the sum of the values divided by their count. -/
theorem mean_is_sum_div_count (v : List ℚ) (h : v ≠ []) :
    computeStat .MEAN v = some (v.sum / (v.length : ℚ)) := by
  match v, h with
  | x :: xs, _ =>
    show (if (x :: xs).isEmpty = true then none else some (mean (x :: xs)))
      = some ((x :: xs).sum / ((x :: xs).length : ℚ))
    rw [if_neg (by simp)]
    unfold mean
    rw [foldl_add_eq_sum, zero_add]

/-- C6 witness: the theorem applied to the concrete sequence `[1,2]`. -/
theorem mean_is_sum_div_count_witness :
    ([(1 : ℚ), 2] ≠ [])
    ∧ computeStat .MEAN [(1 : ℚ), 2]
        = some ([(1 : ℚ), 2].sum / (([(1 : ℚ), 2].length : ℕ) : ℚ)) :=
  ⟨by decide, mean_is_sum_div_count [(1 : ℚ), 2] (by decide)⟩

/-- C7: for the min (resp. max) statistic and every non-empty collected
sequence, the result is a member of the collected values that is a lower
(resp. upper) bound of all of them. -/
theorem min_max_are_extrema (v : List ℚ) (h : v ≠ []) :
    ∃ m M, computeStat .MIN v = some m ∧ computeStat .MAX v = some M
      ∧ m ∈ v ∧ M ∈ v ∧ ∀ x ∈ v, m ≤ x ∧ x ≤ M := by
  match v, h with
  | x :: xs, _ =>
    refine ⟨xs.foldl min x, xs.foldl max x, rfl, rfl,
      foldl_min_mem xs x, foldl_max_mem xs x, ?_⟩
    intro y hy
    exact ⟨foldl_min_le xs x y hy, le_foldl_max xs x y hy⟩

/-- C7 witness: the theorem applied to the concrete sequence `[3,1,2]`. -/
theorem min_max_are_extrema_witness :
    ([(3 : ℚ), 1, 2] ≠ [])
    ∧ (∃ m M, computeStat .MIN [(3 : ℚ), 1, 2] = some m
        ∧ computeStat .MAX [(3 : ℚ), 1, 2] = some M
        ∧ m ∈ [(3 : ℚ), 1, 2] ∧ M ∈ [(3 : ℚ), 1, 2]
        ∧ ∀ x ∈ [(3 : ℚ), 1, 2], m ≤ x ∧ x ≤ M) :=
  ⟨by decide, min_max_are_extrema [(3 : ℚ), 1, 2] (by decide)⟩

/-- C8: a sample with no entry for the source field contributes no value and
causes no error — collecting over the samples with it is the same as
collecting over the remaining samples. -/
theorem missing_field_sample_skipped (f nm : String) (fields : List (String × List String))
    (h : lookupA f fields = none)
    (pre post : List (String × List (String × List String))) :
    collectVals f (pre ++ (nm, fields) :: post) = collectVals f (pre ++ post) := by
  induction pre with
  | nil => simp [collectVals, sampleValue, h]
  | cons p pre ih =>
    obtain ⟨nm2, fields2⟩ := p
    cases hs : sampleValue f fields2 with
    | error e => simp [collectVals, hs]
    | ok o => cases o <;> simp [collectVals, hs, ih]

/-- C8 witness: the theorem applied to a concrete record in which `S2` lacks
`DP`. -/
theorem missing_field_sample_skipped_witness :
    lookupA "DP" [("GT", ["0/1"])] = none
    ∧ collectVals "DP"
        ([("S1", [("DP", ["10"])])] ++ ("S2", [("GT", ["0/1"])])
          :: [("S3", [("DP", ["20"])])])
      = collectVals "DP" ([("S1", [("DP", ["10"])])] ++ [("S3", [("DP", ["20"])])]) :=
  ⟨by decide,
    missing_field_sample_skipped "DP" "S2" [("GT", ["0/1"])] (by decide)
      [("S1", [("DP", ["10"])])] [("S3", [("DP", ["20"])])]⟩

/-- C9: whenever a record's values collect successfully and are non-empty,
aggregation succeeds and changes exactly the destination INFO entry: it then
holds the one-element sequence containing the formatted statistic (any prior
value replaced), every other INFO entry is unchanged, and the samples are
unchanged. -/
theorem aggregation_frame_effect (cfg : Config) (var : Variant) (vals : List ℚ)
    (h1 : collectVals cfg.sampleField var.samples = .ok vals) (h2 : vals ≠ []) :
    ∃ res out, computeStat cfg.statType vals = some res
      ∧ processRecord cfg var = .ok out
      ∧ out.info = updateInfo cfg.infoField (formatDouble res) var.info
      ∧ lookupA cfg.infoField out.info = some [formatDouble res]
      ∧ (∀ k, k ≠ cfg.infoField → lookupA k out.info = lookupA k var.info)
      ∧ out.samples = var.samples := by
  obtain ⟨res, hres⟩ := computeStat_of_ne_nil cfg.statType vals h2
  refine ⟨res, { var with info := updateInfo cfg.infoField (formatDouble res) var.info },
    hres, ?_, rfl, lookupA_updateInfo_self _ _ _, ?_, rfl⟩
  · simp [processRecord, h1, hres]
  · intro k hk
    exact lookupA_updateInfo_other cfg.infoField (formatDouble res) k hk var.info

/-- C9 witness: the theorem applied to a record whose INFO already holds a
stale two-element `DP_X` entry plus an unrelated `AC` entry. -/
theorem aggregation_frame_effect_witness :
    collectVals "DP"
        (Variant.samples ⟨[("AC", ["5"]), ("DP_X", ["stale", "old"])],
          [("S1", [("DP", ["10"])])]⟩) = .ok [10]
    ∧ ([(10 : ℚ)] ≠ [])
    ∧ (∃ res out, computeStat .MIN [(10 : ℚ)] = some res
        ∧ processRecord { sampleField := "DP", infoField := "DP_X", statType := .MIN }
            ⟨[("AC", ["5"]), ("DP_X", ["stale", "old"])], [("S1", [("DP", ["10"])])]⟩
          = .ok out
        ∧ out.info = updateInfo "DP_X" (formatDouble res)
            [("AC", ["5"]), ("DP_X", ["stale", "old"])]
        ∧ lookupA "DP_X" out.info = some [formatDouble res]
        ∧ (∀ k, k ≠ "DP_X" →
            lookupA k out.info = lookupA k [("AC", ["5"]), ("DP_X", ["stale", "old"])])
        ∧ out.samples = [("S1", [("DP", ["10"])])]) :=
  ⟨by decide, by decide,
    aggregation_frame_effect { sampleField := "DP", infoField := "DP_X", statType := .MIN }
      ⟨[("AC", ["5"]), ("DP_X", ["stale", "old"])], [("S1", [("DP", ["10"])])]⟩
      [10] (by decide) (by decide)⟩

/-- C10: on a record in which no sample carries the source field, the
collected sequence is empty and the unguarded empty-collection branch of the
statistic computation is reached for every statistic: the median indexes an
empty sorted sequence, min/max select from an empty sequence, and the mean
divides the zero sum by a count of zero. -/
theorem empty_collection_unguarded :
    collectVals "DP" recNoDP.samples = .ok []
    ∧ median ([] : List ℚ) = none
    ∧ minElement [] = none
    ∧ maxElement [] = none
    ∧ mean [] = ([] : List ℚ).foldl (· + ·) 0 / ((0 : ℕ) : ℚ)
    ∧ processRecord { sampleField := "DP", infoField := "DP_STAT", statType := .MEAN }
        recNoDP = .error .emptyValues
    ∧ processRecord { sampleField := "DP", infoField := "DP_STAT", statType := .MEDIAN }
        recNoDP = .error .emptyValues
    ∧ processRecord { sampleField := "DP", infoField := "DP_STAT", statType := .MIN }
        recNoDP = .error .emptyValues
    ∧ processRecord { sampleField := "DP", infoField := "DP_STAT", statType := .MAX }
        recNoDP = .error .emptyValues := by
  refine ⟨by decide, by decide, by decide, by decide, rfl,
    by decide, by decide, by decide, by decide⟩

end Vcfsample2info
